import Mathlib

/-!
Shallow embedding of the `ksjutil` package (files `__init__.py` and
`_conv/G02/__init__.py`).

The package cleans up "National Land Numerical Information" tables: it
applies year-gated legacy value conversions, substitutes integer codes by
label strings using per-`(column, year)` lookup files, and renames columns
to display names.

Modelling conventions:
  * A pandas `DataFrame` is a `Table`: an ordered list of
    `(column name, cell values)` pairs.  Cell values (`Val`) are integers,
    reals (modelled as rationals; the divisions performed by the code are
    exact on the inputs the claims mention), strings, or the `pandas.NA`
    missing-value marker.
  * Python exceptions are modelled with `Except Err`: `KeyError` from
    indexing a missing column, `TypeError` from `year + ".txt"` with a
    non-string year, `FileNotFoundError` from `pandas.read_csv` on a
    missing path.
  * The `_data` directory shipped with the package (the `meta.json`
    descriptors, the per-year code list files and `column_names.txt`) is
    not part of the two source files; the in-memory structures the module
    builds from it at import time (`_COLUMN_LIST`, `_DEFAULT_COLUMNS`) and
    the file system read lazily by `_read_codelist_file` are therefore
    parameters of the embedding, collected in `Env`.
  * The mutable cache closed over by `read_code_list` is passed and
    returned explicitly (`Cache`).
  * `warnings.warn` output is not modelled (it does not affect data flow).
-/

namespace Ksjutil

/-- Python exceptions relevant to this module. -/
inductive Err where
  | keyError
  | typeError
  | fileNotFoundError
deriving DecidableEq, Repr

/-- A cell value of a pandas column.  `rat` stands for Python floats
(the only float-producing operation in the code is an exact division by
ten); `na` is `pandas.NA`. -/
inductive Val where
  | int (z : ℤ)
  | rat (q : ℚ)
  | str (s : String)
  | na
deriving DecidableEq, Repr

/-- A pandas `DataFrame`: ordered `(column name, values)` pairs. -/
abbrev Table := List (String × List Val)

/-- A `{code: data}` dictionary parsed from a per-year lookup file,
kept as the row list (later rows overwrite earlier ones on lookup,
matching Python dict-comprehension semantics). -/
abbrev CodeDict := List (ℤ × String)

/-- The mutable cache of `_create_cached_code_list_fun`, keyed by the
string `"{column_name}-{year}"`. -/
abbrev Cache := List (String × CodeDict)

/-- The `year` argument of the public API: `None`, a Python `int`, or a
Python `str`. -/
inductive YearArg where
  | yNone
  | yInt (z : ℤ)
  | yStr (s : String)
deriving DecidableEq, Repr

/-- The metadata dictionary `_read_column_metadata` builds for one column
and one language: the per-year display names plus the derived
`latest_year`, `default_name` and `has_code_table` entries.  (The three
bookkeeping keys cannot collide with the numeric year-string keys, so the
year names are kept separately.) -/
structure ColumnMeta where
  yearNames : List (String × String)
  latest_year : String
  default_name : String
  has_code_table : Bool
deriving DecidableEq, Repr

/-- The process-wide data the module loads from its `_data` directory when
imported, plus the lazily read code list files.  These files are not
part of the two Python source files, so their contents are parameters.

`g02LatestYear` is modelled from the spec: `_CONVERT_FUNCTIONS` refers to
`G02.LATEST_YEAR`, whose definition is not under the provided sources; the
spec describes it as the "latest year alias" a registered legacy transform
stands in for when no year is requested. -/
structure Env where
  columnList : String → List (String × ColumnMeta)
  defaultColumns : String → List (String × String)
  codeFiles : String → String → Option CodeDict
  g02LatestYear : ℤ

/-- Python `str(...)` on a `year` argument, as used for the cache key. -/
def pyStr : YearArg → String
  | .yNone => "None"
  | .yInt z => toString z
  | .yStr s => s

/-- `df[n]`: the values of the first column named `n`, if any. -/
def lookupCol (df : Table) (n : String) : Option (List Val) :=
  (df.find? (fun p => p.1 == n)).map (fun p => p.2)

/-- `df[n] = ws`: replace the values of every column named `n`. -/
def setCol (df : Table) (n : String) (ws : List Val) : Table :=
  df.map (fun p => if p.1 == n then (p.1, ws) else p)

/-- Pandas division of one cell by 10: integers and floats divide
(exactly, in this model), `pandas.NA` propagates, and dividing a string
column raises `TypeError`. -/
def divVal10 : Val → Except Err Val
  | .int z => .ok (.rat ((z : ℚ) / 10))
  | .rat q => .ok (.rat (q / 10))
  | .str _ => .error .typeError
  | .na => .ok .na

/-- The total counterpart of `divVal10` on non-string cells; used only to
state what a successful division produced. -/
def divPure : Val → Val
  | .int z => .rat ((z : ℚ) / 10)
  | .rat q => .rat (q / 10)
  | .str s => .str s
  | .na => .na

/-- Whether a cell holds a Python string. -/
def isStr : Val → Bool
  | .str _ => true
  | _ => false

namespace G02

/-- The fixed column set of `_conv/G02/__init__.py`:
`"G02_{0:03}".format(i)` for `i` in `range(2, 54)` and `range(59, 85)`. -/
def fmt3 (n : Nat) : String :=
  let s := toString n
  if s.length < 3 then String.mk (List.replicate (3 - s.length) '0') ++ s else s

/-- The 78 column names the G02 converter touches. -/
def g02Names : List String :=
  ((List.range 52).map (fun i => "G02_" ++ fmt3 (i + 2))) ++
    ((List.range 26).map (fun i => "G02_" ++ fmt3 (i + 59)))

/-- Pandas `df[i] / 10` on a whole column: the vectorized division fails
as soon as one cell is a string. -/
def divCol : List Val → Except Err (List Val)
  | [] => .ok []
  | v :: vs =>
    match divVal10 v with
    | .error e => .error e
    | .ok w => (divCol vs).map (fun ws => w :: ws)

/-- One iteration of the `for i in names` loop of `G02.convert`:
`df[i] = df[i] / 10`, raising `KeyError` when the column is absent. -/
def convStep (d : Table) (n : String) : Except Err Table :=
  match lookupCol d n with
  | none => .error .keyError
  | some vs => (divCol vs).map (fun ws => setCol d n ws)

/-- `G02.convert`: `for i in names: df[i] = df[i] / 10`.  Indexing a
column absent from `df` raises `KeyError`. -/
def convert (df : Table) : Except Err Table :=
  g02Names.foldlM convStep df

end G02

/-- `_CONVERT_FUNCTIONS`: the registry
`[[2012, G02.LATEST_YEAR, G02.convert]]`. -/
def _CONVERT_FUNCTIONS (env : Env) : List (ℤ × ℤ × (Table → Except Err Table)) :=
  [(2012, env.g02LatestYear, G02.convert)]

/-- `_convert_values(df, year)`: run every registered transform whose
`year == y or (year is None and y == latest_year)` condition holds.
Note that Python `year == y` with `y` an `int` is `False` whenever `year`
is a string or `None`. -/
def _convert_values (env : Env) (df : Table) (year : YearArg) : Except Err Table :=
  (_CONVERT_FUNCTIONS env).foldlM
    (fun d t =>
      if year = YearArg.yInt t.1 ∨ (year = YearArg.yNone ∧ t.1 = t.2.1) then t.2.2 d
      else .ok d)
    df

/-- `_read_codelist_file(column_name, year, language)`.  Returns `none`
(Python `None`) when the column is unknown to `_COLUMN_LIST[language]` or
has no code table; otherwise substitutes `latest_year` for a missing year
and reads `"{year}.txt"` from the column's metadata directory.  The path
concatenation `year + ".txt"` raises `TypeError` when `year` is an `int`;
a missing file raises `FileNotFoundError` in `pandas.read_csv`. -/
def _read_codelist_file (env : Env) (col : String) (year : YearArg) (lang : String) :
    Except Err (Option CodeDict) :=
  match (env.columnList lang).find? (fun p => p.1 == col) with
  | none => .ok none
  | some pr =>
    if pr.2.has_code_table = false then .ok none
    else
      match (match year with | .yNone => YearArg.yStr pr.2.latest_year | y => y) with
      | .yStr s =>
        match env.codeFiles col s with
        | none => .error .fileNotFoundError
        | some rows => .ok (some rows)
      | _ => .error .typeError

/-- The cache key `"{0}-{1}".format(column_name, str(year))`. -/
def cacheKey (col : String) (year : YearArg) : String :=
  col ++ "-" ++ pyStr year

/-- `read_code_list` (the closure produced by
`_create_cached_code_list_fun`): consult the cache first; on a miss, read
the code list file and cache a non-`None` result.  The evolved cache is
returned alongside the answer. -/
def read_code_list (env : Env) (cache : Cache) (col : String) (year : YearArg)
    (lang : String) : Except Err (Option CodeDict × Cache) :=
  match cache.lookup (cacheKey col year) with
  | some d => .ok (some d, cache)
  | none =>
    match _read_codelist_file env col year lang with
    | .error e => .error e
    | .ok none => .ok (none, cache)
    | .ok (some d) => .ok (some d, (cacheKey col year, d) :: cache)

/-- Lookup in a `{code: data}` dict built by a comprehension: the last
row with the given code wins. -/
def dictGet (d : CodeDict) (z : ℤ) : Option String :=
  d.reverse.lookup z

/-- Python `code in code_dict` / `code_dict[code]` for one cell.  Integer
cells compare by value; a float cell equals an integer key when it is
integral (Python `15.0 in {15: ...}` is `True`); strings and `NA` never
match the integer keys. -/
def valGet (d : CodeDict) : Val → Option String
  | .int z => dictGet d z
  | .rat q => if q.den = 1 then dictGet d q.num else none
  | .str _ => none
  | .na => none

/-- One cell of `code_dict[code] if code in code_dict else pandas.NA`. -/
def substVal (d : CodeDict) (v : Val) : Val :=
  match valGet d v with
  | some s => .str s
  | none => .na

/-- `_convert_code(df, year, language)`: for every column, resolve its
code dict through the cached reader; columns resolving to `None` pass
through, others have every cell substituted. -/
def _convert_code (env : Env) : Cache → Table → YearArg → String →
    Except Err (Table × Cache)
  | cache, [], _, _ => .ok ([], cache)
  | cache, (n, vs) :: rest, year, lang =>
    match read_code_list env cache n year lang with
    | .error e => .error e
    | .ok (none, c1) =>
      (_convert_code env c1 rest year lang).map (fun r => ((n, vs) :: r.1, r.2))
    | .ok (some d, c1) =>
      (_convert_code env c1 rest year lang).map
        (fun r => ((n, vs.map (substVal d)) :: r.1, r.2))

/-- `_find_column_name_from_data_dir(column_name, year, language)`:
unknown column → unchanged; `year is None` → `default_name`; year string
absent from the metadata → warn and use `default_name`; else the year's
name. -/
def _find_column_name_from_data_dir (env : Env) (col : String) (year : YearArg)
    (lang : String) : String :=
  match (env.columnList lang).find? (fun p => p.1 == col) with
  | none => col
  | some pr =>
    if year = .yNone then pr.2.default_name
    else
      match pr.2.yearNames.lookup (pyStr year) with
      | none => pr.2.default_name
      | some nm => nm

/-- `_rename_columns(df, year, conv_table, language)`: first resolve each
header through the per-column metadata, then map any resulting header that
is a key of `conv_table` through it. -/
def _rename_columns (env : Env) (df : Table) (year : YearArg)
    (convTable : List (String × String)) (lang : String) : Table :=
  let renamed := df.map (fun p => (_find_column_name_from_data_dir env p.1 year lang, p.2))
  renamed.map
    (fun p => (match convTable.lookup p.1 with | some m => m | none => p.1, p.2))

/-- The observable outcome of one `cleanup` call: the returned value
(`None` when `inplace`), the final state of the caller's DataFrame object,
and the final cache state. -/
structure CleanupResult where
  ret : Option Table
  caller : Table
  cache : Cache
deriving DecidableEq, Repr

/-- `cleanup(df, year=None, inplace=False, language="ja")`.  With
`inplace=False` the pipeline runs on `df.copy()`, so the caller's frame
keeps its original contents and the transformed copy is returned; with
`inplace=True` the three stages mutate the caller's frame and `None` is
returned. -/
def cleanup (env : Env) (cache : Cache) (df : Table) (year : YearArg)
    (inplace : Bool) (lang : String) : Except Err CleanupResult :=
  match _convert_values env df year with
  | .error e => .error e
  | .ok d1 =>
    match _convert_code env cache d1 year lang with
    | .error e => .error e
    | .ok (d2, c2) =>
      let d3 := _rename_columns env d2 year (env.defaultColumns lang) lang
      .ok ⟨if inplace then none else some d3, if inplace then d3 else df, c2⟩

/-! ### Concrete environments used to evaluate the embedding

The `_data` directory is not part of the two source files, so claims are
settled against a parametric `Env`; the following small concrete
environments instantiate the parametric theorems and ground the
counterexamples. -/

/-- An environment with empty metadata stores. -/
def envW : Env := ⟨fun _ => [], fun _ => [], fun _ _ => none, 2014⟩

/-- A column present only in the "ja" store, with a code table and a 2012
code list file. -/
def envC1 : Env :=
  ⟨fun lang =>
      if lang = "ja" then [("L01_001", ⟨[("2012", "price")], "2012", "price", true⟩)]
      else [],
    fun _ => [],
    fun col s => if col = "L01_001" ∧ s = "2012" then some [(1, "urban")] else none,
    2014⟩

/-- Like `envC1` but with the column present in every language's store. -/
def envC1b : Env :=
  ⟨fun _ => [("L01_001", ⟨[("2012", "price")], "2012", "price", true⟩)],
    fun _ => [],
    fun col s => if col = "L01_001" ∧ s = "2012" then some [(1, "urban")] else none,
    2014⟩

/-- A column known to the "ja" store (display name "Alpha") whose id also
appears in the static default rename table (name "Beta"). -/
def envC2 : Env :=
  ⟨fun lang =>
      if lang = "ja" then [("A01_001", ⟨[("2000", "Alpha")], "2000", "Alpha", false⟩)]
      else [],
    fun lang => if lang = "ja" then [("A01_001", "Beta")] else [],
    fun _ _ => none,
    2014⟩

/-- The metadata entry of `G02_003` in `envC3`. -/
def envC3meta : ColumnMeta := ⟨[("2012", "mesh temp")], "2012", "mesh temp", false⟩

/-- `G02_003` known for "ja" with a 2012 display name and no code table. -/
def envC3 : Env :=
  ⟨fun lang => if lang = "ja" then [("G02_003", envC3meta)] else [],
    fun _ => [],
    fun _ _ => none,
    2014⟩

/-- A table holding the complete G02 legacy column set, with `G02_003`
carrying the integer codes 15 and 999. -/
def dfG02full : Table :=
  G02.g02Names.map
    (fun n => if n = "G02_003" then (n, [Val.int 15, Val.int 999]) else (n, [Val.int 0]))

/-- A column with a code table but no code list file for any year. -/
def envC4 : Env :=
  ⟨fun lang =>
      if lang = "ja" then [("P12_001", ⟨[("2014", "facility")], "2014", "facility", true⟩)]
      else [],
    fun _ => [],
    fun _ _ => none,
    2014⟩

/-- A column with a code table and a 2000 code list file mapping 1 to
"one". -/
def envC5 : Env :=
  ⟨fun lang =>
      if lang = "ja" then [("C01_001", ⟨[("2000", "city")], "2000", "city", true⟩)]
      else [],
    fun _ => [],
    fun col s => if col = "C01_001" ∧ s = "2000" then some [(1, "one")] else none,
    2014⟩

/-- Decidable equality for `Except`, for evaluating the embedding on
concrete inputs. -/
instance {ε α : Type} [DecidableEq ε] [DecidableEq α] : DecidableEq (Except ε α) :=
  fun x y =>
    match x, y with
    | .ok a, .ok b =>
      if h : a = b then .isTrue (by rw [h]) else .isFalse (fun hc => h (Except.ok.inj hc))
    | .error a, .error b =>
      if h : a = b then .isTrue (by rw [h]) else .isFalse (fun hc => h (Except.error.inj hc))
    | .ok _, .error _ => .isFalse (fun hc => Except.noConfusion hc)
    | .error _, .ok _ => .isFalse (fun hc => Except.noConfusion hc)

/-! ### Basic lemmas about the embedding's data structures -/

theorem strData_append (a b : String) : (a ++ b).data = a.data ++ b.data := by
  cases a
  cases b
  rfl

theorem cacheKey_inj {m c : String} (y : YearArg) (h : cacheKey m y = cacheKey c y) :
    m = c := by
  have hd := congrArg String.data h
  simp only [cacheKey, strData_append] at hd
  have h1 := (List.append_inj' hd rfl).1
  have h2 := (List.append_inj' h1 rfl).1
  cases m
  cases c
  exact congrArg String.mk h2

theorem mem_of_lookupCol {df : Table} {n : String} {vs : List Val}
    (h : lookupCol df n = some vs) : (n, vs) ∈ df := by
  unfold lookupCol at h
  cases hf : df.find? (fun p => p.1 == n) with
  | none => rw [hf] at h; cases h
  | some pr =>
    rw [hf] at h
    have hmem := List.mem_of_find?_eq_some hf
    have hp := List.find?_some hf
    rcases pr with ⟨a, b⟩
    simp at hp h
    rw [← hp, ← h]
    exact hmem

theorem setColEntry_fst (n : String) (ws : List Val) (p : String × List Val) :
    (if p.1 == n then (p.1, ws) else p).1 = p.1 := by
  split <;> rfl

theorem find?_setCol (df : Table) (n m : String) (ws : List Val) :
    (setCol df n ws).find? (fun p => p.1 == m) =
      (df.find? (fun p => p.1 == m)).map (fun p => if p.1 == n then (p.1, ws) else p) := by
  induction df with
  | nil => rfl
  | cons p rest ih =>
    rw [setCol, List.map_cons]
    cases h : (p.1 == m) with
    | true =>
      rw [List.find?_cons_of_pos (p := fun q : String × List Val => q.1 == m) _
          (by simp only [decide_eq_true_eq]; split <;> simpa using h),
        List.find?_cons_of_pos (p := fun q : String × List Val => q.1 == m) _ (by simp [h]),
        Option.map_some']
    | false =>
      rw [List.find?_cons_of_neg (p := fun q : String × List Val => q.1 == m) _
          (by simp only [decide_eq_true_eq]; split <;> simpa using h),
        List.find?_cons_of_neg (p := fun q : String × List Val => q.1 == m) _ (by simp [h])]
      simpa [setCol] using ih

theorem lookupCol_setCol_self (df : Table) (n : String) (ws : List Val) :
    lookupCol (setCol df n ws) n = (lookupCol df n).map (fun _ => ws) := by
  unfold lookupCol
  rw [find?_setCol]
  cases hf : df.find? (fun p => p.1 == n) with
  | none => rfl
  | some pr =>
    have hpr := List.find?_some hf
    have he : pr.1 = n := by simpa using hpr
    simp [he]

theorem lookupCol_setCol_ne (df : Table) {m n : String} (h : m ≠ n) (ws : List Val) :
    lookupCol (setCol df n ws) m = lookupCol df m := by
  unfold lookupCol
  rw [find?_setCol]
  cases hf : df.find? (fun p => p.1 == m) with
  | none => rfl
  | some pr =>
    have hpr := List.find?_some hf
    have hm : pr.1 = m := by simpa using hpr
    have hne : pr.1 ≠ n := by rw [hm]; exact h
    simp [hne]

theorem setCol_names (df : Table) (n : String) (ws : List Val) :
    (setCol df n ws).map Prod.fst = df.map Prod.fst := by
  unfold setCol
  rw [List.map_map]
  exact List.map_congr_left (fun p _ => setColEntry_fst n ws p)

theorem setCol_getElem? (df : Table) (n : String) (ws : List Val) (j : ℕ) :
    (setCol df n ws)[j]? =
      df[j]?.map (fun p => if p.1 == n then (p.1, ws) else p) := by
  simp [setCol]

theorem divPure_noStr {v : Val} (h : isStr v = false) : isStr (divPure v) = false := by
  cases v <;> simp [divPure, isStr] at h ⊢

theorem divVal10_of_noStr {v : Val} (h : isStr v = false) :
    divVal10 v = .ok (divPure v) := by
  cases v <;> simp [isStr] at h ⊢ <;> rfl

theorem divCol_ok (vs : List Val) (h : ∀ v ∈ vs, isStr v = false) :
    G02.divCol vs = .ok (vs.map divPure) := by
  induction vs with
  | nil => rfl
  | cons v rest ih =>
    have hv := divVal10_of_noStr (h v (by simp))
    have hr := ih (fun w hw => h w (by simp [hw]))
    rw [G02.divCol, hv, hr]
    rfl

theorem lookupCol_of_getElem?_nodup :
    ∀ (df : Table) (j : ℕ) (c : String) (vs : List Val),
      (df.map Prod.fst).Nodup → df[j]? = some (c, vs) → lookupCol df c = some vs := by
  intro df
  induction df with
  | nil => intro j c vs _ hj; cases hj
  | cons p rest ih =>
    intro j c vs hnd hj
    rw [List.map_cons] at hnd
    have hnd2 := List.nodup_cons.mp hnd
    cases j with
    | zero =>
      have hp : p = (c, vs) := by
        rw [List.getElem?_cons_zero] at hj
        injection hj
      subst hp
      unfold lookupCol
      rw [List.find?_cons_of_pos (p := fun q : String × List Val => q.1 == c) _ (by simp)]
      rfl
    | succ j =>
      rw [List.getElem?_cons_succ] at hj
      have hcmem : c ∈ rest.map Prod.fst :=
        List.mem_map.mpr ⟨(c, vs), List.getElem?_mem hj, rfl⟩
      have hne : (p.1 == c) = false :=
        beq_eq_false_iff_ne.mpr (fun he => hnd2.1 (he ▸ hcmem))
      unfold lookupCol
      rw [List.find?_cons_of_neg (p := fun q : String × List Val => q.1 == c) _
        (by simp [hne])]
      exact ih j c vs hnd2.2 hj

/-! ### Lemmas about the G02 legacy converter -/

theorem exceptBind_ok {ε α β : Type} {x : Except ε α} {f : α → Except ε β} {b : β}
    (h : x >>= f = .ok b) : ∃ a, x = .ok a ∧ f a = .ok b := by
  cases x with
  | error e => simp [Bind.bind, Except.bind] at h
  | ok a => exact ⟨a, rfl, by simpa [Bind.bind, Except.bind] using h⟩

theorem convStep_eq_none {df : Table} {n : String} (hl : lookupCol df n = none) :
    G02.convStep df n = .error .keyError := by
  unfold G02.convStep
  rw [hl]

theorem convStep_eq_some {df : Table} {n : String} {vs : List Val}
    (hl : lookupCol df n = some vs) :
    G02.convStep df n = (G02.divCol vs).map (fun ws => setCol df n ws) := by
  unfold G02.convStep
  rw [hl]

theorem convStep_ok {df d : Table} {n : String} (h : G02.convStep df n = .ok d) :
    ∃ vs ws, lookupCol df n = some vs ∧ G02.divCol vs = .ok ws ∧ d = setCol df n ws := by
  cases hl : lookupCol df n with
  | none =>
    rw [convStep_eq_none hl] at h
    cases h
  | some vs =>
    rw [convStep_eq_some hl] at h
    cases hd : G02.divCol vs with
    | error e => rw [hd] at h; simp [Except.map] at h
    | ok ws =>
      rw [hd] at h
      simp only [Except.map] at h
      exact ⟨vs, ws, rfl, hd, (Except.ok.inj h).symm⟩

theorem convFold_preserve_getElem? :
    ∀ (L : List String) (df d : Table),
      L.foldlM G02.convStep df = .ok d →
      ∀ (j : ℕ) (p : String × List Val), df[j]? = some p → p.1 ∉ L → d[j]? = some p := by
  intro L
  induction L with
  | nil =>
    intro df d h j p hj _
    have hd : df = d := by simpa [List.foldlM_nil, pure, Except.pure] using h
    rw [← hd]
    exact hj
  | cons a L ih =>
    intro df d h j p hj hpL
    rw [List.foldlM_cons] at h
    obtain ⟨df', hs, h'⟩ := exceptBind_ok h
    obtain ⟨vs, ws, _, _, hdf'⟩ := convStep_ok hs
    have hne : p.1 ≠ a := fun he => hpL (by rw [he]; exact List.mem_cons_self a L)
    have hj' : df'[j]? = some p := by
      rw [hdf', setCol_getElem?, hj]
      simp [hne]
    exact ih df' d h' j p hj' (fun hm => hpL (List.mem_cons_of_mem a hm))

theorem convFold_preserve_lookupCol :
    ∀ (L : List String) (df d : Table),
      L.foldlM G02.convStep df = .ok d →
      ∀ m, m ∉ L → lookupCol d m = lookupCol df m := by
  intro L
  induction L with
  | nil =>
    intro df d h m _
    have hd : df = d := by simpa [List.foldlM_nil, pure, Except.pure] using h
    rw [← hd]
  | cons a L ih =>
    intro df d h m hm
    rw [List.foldlM_cons] at h
    obtain ⟨df', hs, h'⟩ := exceptBind_ok h
    obtain ⟨vs, ws, _, _, hdf'⟩ := convStep_ok hs
    have hma : m ≠ a := fun he => hm (by rw [he]; exact List.mem_cons_self a L)
    have : lookupCol df' m = lookupCol df m := by
      rw [hdf']
      exact lookupCol_setCol_ne df hma ws
    rw [ih df' d h' m (fun hmm => hm (List.mem_cons_of_mem a hmm)), this]

theorem convFold_names :
    ∀ (L : List String) (df d : Table),
      L.foldlM G02.convStep df = .ok d → d.map Prod.fst = df.map Prod.fst := by
  intro L
  induction L with
  | nil =>
    intro df d h
    have hd : df = d := by simpa [List.foldlM_nil, pure, Except.pure] using h
    rw [hd]
  | cons a L ih =>
    intro df d h
    rw [List.foldlM_cons] at h
    obtain ⟨df', hs, h'⟩ := exceptBind_ok h
    obtain ⟨vs, ws, _, _, hdf'⟩ := convStep_ok hs
    rw [ih df' d h', hdf', setCol_names]

theorem convFold_missing :
    ∀ (L : List String) (df : Table),
      (∃ n, n ∈ L ∧ lookupCol df n = none) →
      (∀ p, p ∈ df → ∀ v ∈ p.2, isStr v = false) →
      L.foldlM G02.convStep df = .error .keyError := by
  intro L
  induction L with
  | nil =>
    intro df ⟨n, hn, _⟩ _
    cases hn
  | cons a L ih =>
    intro df ⟨n, hn, hmiss⟩ hnum
    rw [List.foldlM_cons]
    cases hla : lookupCol df a with
    | none =>
      rw [convStep_eq_none hla]
      rfl
    | some ws =>
      have hws : ∀ v ∈ ws, isStr v = false := hnum _ (mem_of_lookupCol hla)
      have hdc := divCol_ok ws hws
      have hstep : G02.convStep df a = .ok (setCol df a (ws.map divPure)) := by
        rw [convStep_eq_some hla, hdc]
        rfl
      rw [hstep]
      have hna : n ≠ a := by
        intro he
        rw [he, hla] at hmiss
        cases hmiss
      have hnL : n ∈ L := by
        cases List.mem_cons.mp hn with
        | inl h => exact absurd h hna
        | inr h => exact h
      have hrec := ih (setCol df a (ws.map divPure))
        ⟨n, hnL, by rw [lookupCol_setCol_ne df hna]; exact hmiss⟩
        (by
          intro p hp v hv
          rcases List.mem_map.mp hp with ⟨q, hq, hqe⟩
          subst hqe
          by_cases hqa : q.1 = a
          · simp [hqa] at hv
            rcases hv with ⟨w, hw, hwe⟩
            rw [← hwe]
            exact divPure_noStr (hws w hw)
          · simp [hqa] at hv
            exact hnum q hq v hv)
      exact hrec

theorem convFold_divides :
    ∀ (L : List String), L.Nodup → ∀ (df d : Table),
      L.foldlM G02.convStep df = .ok d →
      ∀ m vs, m ∈ L → lookupCol df m = some vs → (∀ v ∈ vs, isStr v = false) →
      lookupCol d m = some (vs.map divPure) := by
  intro L
  induction L with
  | nil =>
    intro _ df d _ m vs hm
    cases hm
  | cons a L ih =>
    intro hnd df d h m vs hm hlm hvs
    have hnd2 := List.nodup_cons.mp hnd
    rw [List.foldlM_cons] at h
    obtain ⟨df', hs, h'⟩ := exceptBind_ok h
    obtain ⟨ws, ws', hws, hdc, hdf'⟩ := convStep_ok hs
    by_cases hma : m = a
    · subst hma
      have hwv : vs = ws := by
        rw [hlm] at hws
        exact Option.some.inj hws
      subst hwv
      have hvv : ws' = vs.map divPure := by
        have h2 := divCol_ok vs hvs
        rw [h2] at hdc
        exact (Except.ok.inj hdc).symm
      have hl' : lookupCol df' m = some (vs.map divPure) := by
        rw [hdf', lookupCol_setCol_self, hlm, hvv]
        rfl
      rw [convFold_preserve_lookupCol L df' d h' m hnd2.1, hl']
    · have hmL : m ∈ L := by
        cases List.mem_cons.mp hm with
        | inl he => exact absurd he hma
        | inr he => exact he
      have hl' : lookupCol df' m = some vs := by
        rw [hdf', lookupCol_setCol_ne df hma]
        exact hlm
      exact ih hnd2.2 df' d h' m vs hmL hl' hvs

theorem convFold_total :
    ∀ (L : List String) (df : Table),
      (∀ n ∈ L, ∃ vs, lookupCol df n = some vs ∧ ∀ v ∈ vs, isStr v = false) →
      ∃ d, L.foldlM G02.convStep df = .ok d := by
  intro L
  induction L with
  | nil =>
    intro df _
    exact ⟨df, rfl⟩
  | cons a L ih =>
    intro df hall
    obtain ⟨vs, hvs, hnum⟩ := hall a (List.mem_cons_self a L)
    have hdc := divCol_ok vs hnum
    have hstep : G02.convStep df a = .ok (setCol df a (vs.map divPure)) := by
      rw [convStep_eq_some hvs, hdc]
      rfl
    have hrec := ih (setCol df a (vs.map divPure)) (by
      intro n hn
      by_cases hna : n = a
      · subst hna
        refine ⟨vs.map divPure, ?_, ?_⟩
        · rw [lookupCol_setCol_self, hvs]
          rfl
        · intro v hv
          rcases List.mem_map.mp hv with ⟨w, hw, hwe⟩
          rw [← hwe]
          exact divPure_noStr (hnum w hw)
      · obtain ⟨ws, hws, hwn⟩ := hall n (List.mem_cons_of_mem a hn)
        refine ⟨ws, ?_, hwn⟩
        rw [lookupCol_setCol_ne df hna]
        exact hws)
    obtain ⟨d, hd⟩ := hrec
    refine ⟨d, ?_⟩
    rw [List.foldlM_cons, hstep]
    exact hd

/-! ### Lemmas about the code-list stages and the pipeline -/

theorem convertValues_eq (env : Env) (df : Table) (year : YearArg) :
    _convert_values env df year =
      if year = YearArg.yInt 2012 ∨ (year = YearArg.yNone ∧ (2012 : ℤ) = env.g02LatestYear)
      then G02.convert df else .ok df := by
  unfold _convert_values _CONVERT_FUNCTIONS
  simp only [List.foldlM_cons, List.foldlM_nil]
  by_cases hc : year = YearArg.yInt 2012 ∨ (year = YearArg.yNone ∧ (2012 : ℤ) = env.g02LatestYear)
  · rw [if_pos hc]
    cases hg : G02.convert df with
    | error e => rfl
    | ok d => rfl
  · rw [if_neg hc]
    rfl

theorem rcf_of_find?_none {env : Env} {col : String} {year : YearArg} {lang : String}
    (h : (env.columnList lang).find? (fun p => p.1 == col) = none) :
    _read_codelist_file env col year lang = .ok none := by
  unfold _read_codelist_file
  rw [h]

theorem rcf_of_no_code_table {env : Env} {col : String} {year : YearArg} {lang : String}
    {pr : String × ColumnMeta}
    (h : (env.columnList lang).find? (fun p => p.1 == col) = some pr)
    (hc : pr.2.has_code_table = false) :
    _read_codelist_file env col year lang = .ok none := by
  unfold _read_codelist_file
  rw [h]
  simp [hc]

theorem rcf_str_year {env : Env} {col : String} {lang : String} {s : String}
    {pr : String × ColumnMeta}
    (h : (env.columnList lang).find? (fun p => p.1 == col) = some pr)
    (hc : pr.2.has_code_table = true) :
    _read_codelist_file env col (.yStr s) lang =
      (match env.codeFiles col s with
       | none => .error .fileNotFoundError
       | some rows => .ok (some rows)) := by
  unfold _read_codelist_file
  rw [h]
  simp [hc]

theorem rcf_int_year {env : Env} {col : String} {lang : String} {n : ℤ}
    {pr : String × ColumnMeta}
    (h : (env.columnList lang).find? (fun p => p.1 == col) = some pr)
    (hc : pr.2.has_code_table = true) :
    _read_codelist_file env col (.yInt n) lang = .error .typeError := by
  unfold _read_codelist_file
  rw [h]
  simp [hc]

theorem rcf_none_year {env : Env} {col : String} {lang : String}
    {pr : String × ColumnMeta}
    (h : (env.columnList lang).find? (fun p => p.1 == col) = some pr)
    (hc : pr.2.has_code_table = true) :
    _read_codelist_file env col .yNone lang =
      (match env.codeFiles col pr.2.latest_year with
       | none => .error .fileNotFoundError
       | some rows => .ok (some rows)) := by
  unfold _read_codelist_file
  rw [h]
  simp [hc]

theorem rcl_cached {env : Env} {cache : Cache} {col : String} {year : YearArg}
    {lang : String} {d : CodeDict}
    (h : cache.lookup (cacheKey col year) = some d) :
    read_code_list env cache col year lang = .ok (some d, cache) := by
  unfold read_code_list
  rw [h]

theorem rcl_uncached {env : Env} {cache : Cache} {col : String} {year : YearArg}
    {lang : String}
    (h : cache.lookup (cacheKey col year) = none) :
    read_code_list env cache col year lang =
      (match _read_codelist_file env col year lang with
       | .error e => .error e
       | .ok none => .ok (none, cache)
       | .ok (some d) => .ok (some d, (cacheKey col year, d) :: cache)) := by
  unfold read_code_list
  rw [h]

theorem rcl_inv {env : Env} {cache : Cache} {col : String} {year : YearArg}
    {lang : String} {o : Option CodeDict} {c1 : Cache}
    (h : read_code_list env cache col year lang = .ok (o, c1)) :
    (∃ d, cache.lookup (cacheKey col year) = some d ∧ o = some d ∧ c1 = cache) ∨
    (cache.lookup (cacheKey col year) = none ∧
      ((_read_codelist_file env col year lang = .ok none ∧ o = none ∧ c1 = cache) ∨
       (∃ d, _read_codelist_file env col year lang = .ok (some d) ∧ o = some d ∧
         c1 = (cacheKey col year, d) :: cache))) := by
  cases hcl : cache.lookup (cacheKey col year) with
  | some d =>
    rw [rcl_cached hcl] at h
    have he := Except.ok.inj h
    exact Or.inl ⟨d, rfl, (congrArg Prod.fst he).symm, (congrArg Prod.snd he).symm⟩
  | none =>
    rw [rcl_uncached hcl] at h
    refine Or.inr ⟨rfl, ?_⟩
    cases hrf : _read_codelist_file env col year lang with
    | error e => rw [hrf] at h; cases h
    | ok od =>
      rw [hrf] at h
      cases od with
      | none =>
        have he := Except.ok.inj h
        exact Or.inl ⟨rfl, (congrArg Prod.fst he).symm, (congrArg Prod.snd he).symm⟩
      | some d =>
        have he := Except.ok.inj h
        exact Or.inr ⟨d, rfl, (congrArg Prod.fst he).symm, (congrArg Prod.snd he).symm⟩

theorem lookup_cons_ne {α β : Type} [BEq α] [LawfulBEq α] {k a : α} {b : β}
    {es : List (α × β)} (h : a ≠ k) : ((k, b) :: es).lookup a = es.lookup a := by
  simp [List.lookup_cons, beq_eq_false_iff_ne.mpr h]

theorem convertCode_cons_error {env : Env} {cache : Cache} {n : String} {vs : List Val}
    {rest : Table} {year : YearArg} {lang : String} {e : Err}
    (h : read_code_list env cache n year lang = .error e) :
    _convert_code env cache ((n, vs) :: rest) year lang = .error e := by
  unfold _convert_code
  rw [h]

theorem convertCode_cons_none {env : Env} {cache : Cache} {n : String} {vs : List Val}
    {rest : Table} {year : YearArg} {lang : String} {c1 : Cache}
    (h : read_code_list env cache n year lang = .ok (none, c1)) :
    _convert_code env cache ((n, vs) :: rest) year lang =
      (_convert_code env c1 rest year lang).map (fun r => ((n, vs) :: r.1, r.2)) := by
  conv_lhs => unfold _convert_code
  rw [h]

theorem convertCode_cons_some {env : Env} {cache : Cache} {n : String} {vs : List Val}
    {rest : Table} {year : YearArg} {lang : String} {d : CodeDict} {c1 : Cache}
    (h : read_code_list env cache n year lang = .ok (some d, c1)) :
    _convert_code env cache ((n, vs) :: rest) year lang =
      (_convert_code env c1 rest year lang).map
        (fun r => ((n, vs.map (substVal d)) :: r.1, r.2)) := by
  conv_lhs => unfold _convert_code
  rw [h]

theorem convertCode_noop (env : Env) (year : YearArg) (lang : String) :
    ∀ (df : Table) (cache : Cache),
      (∀ p ∈ df, cache.lookup (cacheKey p.1 year) = none) →
      (∀ p ∈ df, _read_codelist_file env p.1 year lang = .ok none) →
      _convert_code env cache df year lang = .ok (df, cache) := by
  intro df
  induction df with
  | nil => intro cache _ _; rfl
  | cons p rest ih =>
    intro cache h1 h2
    rcases p with ⟨n, vs⟩
    have hrcl : read_code_list env cache n year lang = .ok (none, cache) := by
      rw [rcl_uncached (h1 _ (List.mem_cons_self _ _)), h2 _ (List.mem_cons_self _ _)]
    rw [convertCode_cons_none hrcl,
      ih cache (fun q hq => h1 q (List.mem_cons_of_mem _ hq))
        (fun q hq => h2 q (List.mem_cons_of_mem _ hq))]
    rfl

theorem convertCode_append (env : Env) (year : YearArg) (lang : String) :
    ∀ (pre post : Table) (cache : Cache) (out : Table) (cf : Cache),
      _convert_code env cache (pre ++ post) year lang = .ok (out, cf) →
      ∃ o1 c1 o2, _convert_code env cache pre year lang = .ok (o1, c1) ∧
        _convert_code env c1 post year lang = .ok (o2, cf) ∧ out = o1 ++ o2 := by
  intro pre
  induction pre with
  | nil =>
    intro post cache out cf h
    exact ⟨[], cache, out, rfl, by simpa using h, by simp⟩
  | cons p pre ih =>
    intro post cache out cf h
    rcases p with ⟨n, vs⟩
    rw [List.cons_append] at h
    cases hr : read_code_list env cache n year lang with
    | error e => rw [convertCode_cons_error hr] at h; cases h
    | ok oc =>
      rcases oc with ⟨o, c1⟩
      cases o with
      | none =>
        rw [convertCode_cons_none hr] at h
        cases hin : _convert_code env c1 (pre ++ post) year lang with
        | error e => rw [hin] at h; simp [Except.map] at h
        | ok rc =>
          rcases rc with ⟨r1, r2⟩
          rw [hin] at h
          simp only [Except.map, Except.ok.injEq, Prod.mk.injEq] at h
          obtain ⟨hout, hcf⟩ := h
          obtain ⟨o1, c1', o2, ha, hb, hc⟩ := ih post c1 r1 r2 hin
          refine ⟨(n, vs) :: o1, c1', o2, ?_, ?_, ?_⟩
          · rw [convertCode_cons_none hr, ha]
            rfl
          · rw [hcf] at hb
            exact hb
          · rw [← hout, hc]
            rfl
      | some d =>
        rw [convertCode_cons_some hr] at h
        cases hin : _convert_code env c1 (pre ++ post) year lang with
        | error e => rw [hin] at h; simp [Except.map] at h
        | ok rc =>
          rcases rc with ⟨r1, r2⟩
          rw [hin] at h
          simp only [Except.map, Except.ok.injEq, Prod.mk.injEq] at h
          obtain ⟨hout, hcf⟩ := h
          obtain ⟨o1, c1', o2, ha, hb, hc⟩ := ih post c1 r1 r2 hin
          refine ⟨(n, vs.map (substVal d)) :: o1, c1', o2, ?_, ?_, ?_⟩
          · rw [convertCode_cons_some hr, ha]
            rfl
          · rw [hcf] at hb
            exact hb
          · rw [← hout, hc]
            rfl

theorem convertCode_preserve {env : Env} {year : YearArg} {lang : String} {c : String}
    (hstore : (env.columnList lang).find? (fun p => p.1 == c) = none) :
    ∀ (df : Table) (cache : Cache) (out : Table) (cf : Cache),
      cache.lookup (cacheKey c year) = none →
      _convert_code env cache df year lang = .ok (out, cf) →
      ∀ (j : ℕ) (vs : List Val), df[j]? = some (c, vs) → out[j]? = some (c, vs) := by
  intro df
  induction df with
  | nil => intro cache out cf _ h j vs hj; cases hj
  | cons p rest ih =>
    intro cache out cf hcache h j vs hj
    rcases p with ⟨m, ws⟩
    cases hr : read_code_list env cache m year lang with
    | error e => rw [convertCode_cons_error hr] at h; cases h
    | ok oc =>
      rcases oc with ⟨o, c1⟩
      cases o with
      | none =>
        rw [convertCode_cons_none hr] at h
        have hc1 : c1 = cache := by
          rcases rcl_inv hr with ⟨d, _, ho, _⟩ | ⟨_, ⟨_, _, hc1⟩ | ⟨d, _, ho, _⟩⟩
          · cases ho
          · exact hc1
          · cases ho
        cases hin : _convert_code env c1 rest year lang with
        | error e => rw [hin] at h; simp [Except.map] at h
        | ok rc =>
          rcases rc with ⟨r1, r2⟩
          rw [hin] at h
          simp only [Except.map, Except.ok.injEq, Prod.mk.injEq] at h
          obtain ⟨hout, hcf⟩ := h
          cases j with
          | zero =>
            have hp : (m, ws) = (c, vs) := by
              rw [List.getElem?_cons_zero] at hj
              injection hj
            rw [← hout, List.getElem?_cons_zero, hp]
          | succ j =>
            rw [List.getElem?_cons_succ] at hj
            rw [← hout, List.getElem?_cons_succ]
            exact ih c1 r1 r2 (hc1 ▸ hcache) hin j vs hj
      | some d =>
        rw [convertCode_cons_some hr] at h
        have hmc : m ≠ c := by
          intro he
          subst he
          rcases rcl_inv hr with ⟨d', hcl, _, _⟩ | ⟨_, ⟨hrf, ho, _⟩ | ⟨d', hrf, _, _⟩⟩
          · rw [hcache] at hcl; cases hcl
          · cases ho
          · rw [rcf_of_find?_none hstore] at hrf
            cases Except.ok.inj hrf
        have hc1 : c1.lookup (cacheKey c year) = none := by
          rcases rcl_inv hr with ⟨d', _, _, hc1⟩ | ⟨_, ⟨_, ho, _⟩ | ⟨d', _, _, hc1⟩⟩
          · rw [hc1]; exact hcache
          · cases ho
          · rw [hc1, lookup_cons_ne (fun he => hmc (cacheKey_inj year he).symm)]
            exact hcache
        cases hin : _convert_code env c1 rest year lang with
        | error e => rw [hin] at h; simp [Except.map] at h
        | ok rc =>
          rcases rc with ⟨r1, r2⟩
          rw [hin] at h
          simp only [Except.map, Except.ok.injEq, Prod.mk.injEq] at h
          obtain ⟨hout, hcf⟩ := h
          cases j with
          | zero =>
            rw [List.getElem?_cons_zero] at hj
            have hp : (m, ws) = (c, vs) := by injection hj
            exact absurd (congrArg Prod.fst hp) hmc
          | succ j =>
            rw [List.getElem?_cons_succ] at hj
            rw [← hout, List.getElem?_cons_succ]
            exact ih c1 r1 r2 hc1 hin j vs hj

theorem findName_unknown {env : Env} {col : String} {year : YearArg} {lang : String}
    (h : (env.columnList lang).find? (fun p => p.1 == col) = none) :
    _find_column_name_from_data_dir env col year lang = col := by
  unfold _find_column_name_from_data_dir
  rw [h]

theorem findName_some {env : Env} {col : String} {lang : String} {year : YearArg}
    {pr : String × ColumnMeta}
    (h : (env.columnList lang).find? (fun p => p.1 == col) = some pr) :
    _find_column_name_from_data_dir env col year lang =
      (if year = .yNone then pr.2.default_name
       else
         match pr.2.yearNames.lookup (pyStr year) with
         | none => pr.2.default_name
         | some nm => nm) := by
  unfold _find_column_name_from_data_dir
  rw [h]

theorem findName_yNone {env : Env} {col : String} {lang : String}
    {pr : String × ColumnMeta}
    (h : (env.columnList lang).find? (fun p => p.1 == col) = some pr) :
    _find_column_name_from_data_dir env col .yNone lang = pr.2.default_name := by
  rw [findName_some h]
  rfl

theorem findName_found {env : Env} {col : String} {lang : String} {nm : String}
    {pr : String × ColumnMeta} {y : YearArg} (hy : y ≠ .yNone)
    (h : (env.columnList lang).find? (fun p => p.1 == col) = some pr)
    (hnm : pr.2.yearNames.lookup (pyStr y) = some nm) :
    _find_column_name_from_data_dir env col y lang = nm := by
  rw [findName_some h, if_neg hy, hnm]

theorem findName_fallback {env : Env} {col : String} {lang : String}
    {pr : String × ColumnMeta} {y : YearArg} (hy : y ≠ .yNone)
    (h : (env.columnList lang).find? (fun p => p.1 == col) = some pr)
    (hnm : pr.2.yearNames.lookup (pyStr y) = none) :
    _find_column_name_from_data_dir env col y lang = pr.2.default_name := by
  rw [findName_some h, if_neg hy, hnm]

theorem rename_getElem? (env : Env) (df : Table) (year : YearArg)
    (ct : List (String × String)) (lang : String) (j : ℕ) :
    (_rename_columns env df year ct lang)[j]? =
      df[j]?.map (fun p =>
        (match ct.lookup (_find_column_name_from_data_dir env p.1 year lang) with
         | some m => m
         | none => _find_column_name_from_data_dir env p.1 year lang, p.2)) := by
  unfold _rename_columns
  simp only [List.getElem?_map, Option.map_map]
  rfl

theorem cleanup_eq1 {env : Env} {cache : Cache} {df : Table} {year : YearArg}
    {inplace : Bool} {lang : String} {d1 : Table}
    (h1 : _convert_values env df year = .ok d1) :
    cleanup env cache df year inplace lang =
      (match _convert_code env cache d1 year lang with
       | .error e => .error e
       | .ok (d2, c2) =>
         let d3 := _rename_columns env d2 year (env.defaultColumns lang) lang
         Except.ok ⟨if inplace then none else some d3, if inplace then d3 else df, c2⟩) := by
  unfold cleanup
  rw [h1]

theorem cleanup_eq_ok {env : Env} {cache : Cache} {df : Table} {year : YearArg}
    {inplace : Bool} {lang : String} {d1 d2 : Table} {c2 : Cache}
    (h1 : _convert_values env df year = .ok d1)
    (h2 : _convert_code env cache d1 year lang = .ok (d2, c2)) :
    cleanup env cache df year inplace lang =
      .ok ⟨if inplace then none
             else some (_rename_columns env d2 year (env.defaultColumns lang) lang),
           if inplace then _rename_columns env d2 year (env.defaultColumns lang) lang
             else df,
           c2⟩ := by
  rw [cleanup_eq1 h1, h2]

theorem cleanup_error_values {env : Env} {cache : Cache} {df : Table} {year : YearArg}
    {inplace : Bool} {lang : String} {e : Err}
    (h1 : _convert_values env df year = .error e) :
    cleanup env cache df year inplace lang = .error e := by
  unfold cleanup
  rw [h1]

theorem cleanup_error_code {env : Env} {cache : Cache} {df : Table} {year : YearArg}
    {inplace : Bool} {lang : String} {d1 : Table} {e : Err}
    (h1 : _convert_values env df year = .ok d1)
    (h2 : _convert_code env cache d1 year lang = .error e) :
    cleanup env cache df year inplace lang = .error e := by
  rw [cleanup_eq1 h1, h2]

theorem cleanup_inv {env : Env} {cache : Cache} {df : Table} {year : YearArg}
    {inplace : Bool} {lang : String} {res : CleanupResult}
    (h : cleanup env cache df year inplace lang = .ok res) :
    ∃ d1 d2 c2, _convert_values env df year = .ok d1 ∧
      _convert_code env cache d1 year lang = .ok (d2, c2) ∧
      res = ⟨if inplace then none
               else some (_rename_columns env d2 year (env.defaultColumns lang) lang),
             if inplace then _rename_columns env d2 year (env.defaultColumns lang) lang
               else df,
             c2⟩ := by
  cases hv : _convert_values env df year with
  | error e => rw [cleanup_error_values hv] at h; cases h
  | ok d1 =>
    rw [cleanup_eq1 hv] at h
    cases hc : _convert_code env cache d1 year lang with
    | error e => rw [hc] at h; cases h
    | ok p =>
      rcases p with ⟨d2, c2⟩
      rw [hc] at h
      exact ⟨d1, d2, c2, rfl, hc, (Except.ok.inj h).symm⟩

theorem substVal_spec (d : CodeDict) (v : Val) :
    (∃ s, valGet d v = some s ∧ substVal d v = Val.str s) ∨
    (valGet d v = none ∧ substVal d v = Val.na) := by
  cases hg : valGet d v with
  | some s => exact Or.inl ⟨s, rfl, by unfold substVal; rw [hg]⟩
  | none => exact Or.inr ⟨rfl, by unfold substVal; rw [hg]⟩

theorem substVal_str_or_na (d : CodeDict) (v : Val) :
    (∃ s, substVal d v = Val.str s) ∨ substVal d v = Val.na := by
  rcases substVal_spec d v with ⟨s, _, h⟩ | ⟨_, h⟩
  · exact Or.inl ⟨s, h⟩
  · exact Or.inr h

/-! ### Claim theorems -/

/-- C8: `cleanup` with `inplace=True` mutates the caller's frame and
returns `None`; with `inplace=False` it leaves the caller's frame holding
its original contents and returns the transformed table built on a copy;
no call both mutates the input and returns a table. -/
theorem cleanup_inplace_contract (env : Env) (cache : Cache) (df : Table)
    (year : YearArg) (lang : String) :
    (∀ res, cleanup env cache df year true lang = .ok res →
      res.ret = none ∧
      ∃ d1 d2 c2, _convert_values env df year = .ok d1 ∧
        _convert_code env cache d1 year lang = .ok (d2, c2) ∧
        res.caller = _rename_columns env d2 year (env.defaultColumns lang) lang) ∧
    (∀ res, cleanup env cache df year false lang = .ok res →
      res.caller = df ∧
      ∃ d1 d2 c2, _convert_values env df year = .ok d1 ∧
        _convert_code env cache d1 year lang = .ok (d2, c2) ∧
        res.ret = some (_rename_columns env d2 year (env.defaultColumns lang) lang)) ∧
    (∀ (b : Bool) res, cleanup env cache df year b lang = .ok res →
      res.ret = none ∨ res.caller = df) := by
  refine ⟨?_, ?_, ?_⟩
  · intro res h
    obtain ⟨d1, d2, c2, h1, h2, hres⟩ := cleanup_inv h
    subst hres
    exact ⟨rfl, d1, d2, c2, h1, h2, rfl⟩
  · intro res h
    obtain ⟨d1, d2, c2, h1, h2, hres⟩ := cleanup_inv h
    subst hres
    exact ⟨rfl, d1, d2, c2, h1, h2, rfl⟩
  · intro b res h
    obtain ⟨d1, d2, c2, h1, h2, hres⟩ := cleanup_inv h
    subst hres
    cases b
    · exact Or.inr rfl
    · exact Or.inl rfl

theorem cleanup_inplace_contract_witness :
    cleanup envW [] [("X", [Val.int 1])] .yNone true "ja" =
      .ok ⟨none, [("X", [Val.int 1])], []⟩ ∧
    (⟨none, [("X", [Val.int 1])], []⟩ : CleanupResult).ret = none := by
  constructor
  · rfl
  · exact ((cleanup_inplace_contract envW [] [("X", [Val.int 1])] .yNone "ja").1
      ⟨none, [("X", [Val.int 1])], []⟩ (by rfl)).1

/-- C4: for a column known to the store with `has_code_table`, requesting
a (string) year with no code list file makes `_read_codelist_file` — and a
`cleanup` call on a table containing that column — fail synchronously with
`FileNotFoundError`; no fallback to another year, no silent skip. -/
theorem missing_codelist_file_errors (env : Env) (cache : Cache) (col : String)
    (pr : String × ColumnMeta) (s : String) (vs : List Val) (lang : String)
    (inplace : Bool)
    (hfind : (env.columnList lang).find? (fun p => p.1 == col) = some pr)
    (hct : pr.2.has_code_table = true)
    (hfile : env.codeFiles col s = none)
    (hcache : cache.lookup (cacheKey col (.yStr s)) = none) :
    _read_codelist_file env col (.yStr s) lang = .error .fileNotFoundError ∧
    cleanup env cache [(col, vs)] (.yStr s) inplace lang = .error .fileNotFoundError := by
  have hrcf : _read_codelist_file env col (.yStr s) lang = .error .fileNotFoundError := by
    rw [rcf_str_year hfind hct, hfile]
  refine ⟨hrcf, ?_⟩
  have hv : _convert_values env [(col, vs)] (.yStr s) = .ok [(col, vs)] := by
    rw [convertValues_eq, if_neg (by simp)]
  have hrcl : read_code_list env cache col (.yStr s) lang = .error .fileNotFoundError := by
    rw [rcl_uncached hcache, hrcf]
  exact cleanup_error_code hv (convertCode_cons_error hrcl)

theorem missing_codelist_file_errors_witness :
    cleanup envC4 [] [("P12_001", [Val.int 3])] (.yStr "1999") false "ja" =
      .error .fileNotFoundError :=
  (missing_codelist_file_errors envC4 [] "P12_001"
    ("P12_001", ⟨[("2014", "facility")], "2014", "facility", true⟩) "1999"
    [Val.int 3] "ja" false rfl rfl rfl rfl).2

/-- C10: `_read_codelist_file` concatenates the year argument with ".txt"
without applying `str()`, so an integer year raises `TypeError` for any
column with a code table (with a cold cache); the renaming stage, by
contrast, accepts integer years because it applies `str(year)`. -/
theorem integer_year_type_error (env : Env) (cache : Cache) (col : String)
    (pr : String × ColumnMeta) (n : ℤ) (vs : List Val) (lang : String)
    (inplace : Bool)
    (hfind : (env.columnList lang).find? (fun p => p.1 == col) = some pr)
    (hct : pr.2.has_code_table = true)
    (hcache : cache.lookup (cacheKey col (.yInt n)) = none)
    (hn : n ≠ 2012) :
    _read_codelist_file env col (.yInt n) lang = .error .typeError ∧
    cleanup env cache [(col, vs)] (.yInt n) inplace lang = .error .typeError ∧
    (∀ m : ℤ, _find_column_name_from_data_dir env col (.yInt m) lang =
      _find_column_name_from_data_dir env col (.yStr (toString m)) lang) := by
  have hrcf : _read_codelist_file env col (.yInt n) lang = .error .typeError :=
    rcf_int_year hfind hct
  refine ⟨hrcf, ?_, ?_⟩
  · have hv : _convert_values env [(col, vs)] (.yInt n) = .ok [(col, vs)] := by
      rw [convertValues_eq, if_neg (by simp [hn])]
    have hrcl : read_code_list env cache col (.yInt n) lang = .error .typeError := by
      rw [rcl_uncached hcache, hrcf]
    exact cleanup_error_code hv (convertCode_cons_error hrcl)
  · intro m
    rw [findName_some hfind, findName_some hfind, if_neg (by simp), if_neg (by simp)]
    simp only [pyStr]

theorem integer_year_type_error_witness :
    cleanup envC4 [] [("P12_001", [Val.int 3])] (.yInt 1999) false "ja" =
      .error .typeError :=
  (integer_year_type_error envC4 [] "P12_001"
    ("P12_001", ⟨[("2014", "facility")], "2014", "facility", true⟩) 1999
    [Val.int 3] "ja" false rfl rfl rfl (by decide)).2.1

/-- C7: (a) for a year outside the registered applicable range the legacy
value converter is the identity, so applying it twice is also the
identity; (b) on a table whose headers are display names — absent from the
metadata store, with no cache entry under their keys — the
code-substitution stage is a no-op. -/
theorem legacy_identity_second_cleanup_noop (env : Env) :
    (∀ (df : Table) (year : YearArg),
      ¬(year = YearArg.yInt 2012 ∨
          (year = YearArg.yNone ∧ (2012 : ℤ) = env.g02LatestYear)) →
      _convert_values env df year = .ok df ∧
      (_convert_values env df year).bind (fun d => _convert_values env d year) =
        .ok df) ∧
    (∀ (df : Table) (cache : Cache) (year : YearArg) (lang : String),
      (∀ p ∈ df, (env.columnList lang).find? (fun q => q.1 == p.1) = none) →
      (∀ p ∈ df, cache.lookup (cacheKey p.1 year) = none) →
      _convert_code env cache df year lang = .ok (df, cache)) := by
  constructor
  · intro df year hy
    have h1 : _convert_values env df year = .ok df := by
      rw [convertValues_eq, if_neg hy]
    refine ⟨h1, ?_⟩
    rw [h1]
    exact h1
  · intro df cache year lang hs hc
    exact convertCode_noop env year lang df cache hc
      (fun p hp => rcf_of_find?_none (hs p hp))

theorem legacy_identity_second_cleanup_noop_witness :
    _convert_values envW [("X", [Val.int 1])] (.yStr "2012") =
      .ok [("X", [Val.int 1])] ∧
    _convert_code envW [] [("Name A", [Val.str "label"])] (.yStr "2012") "ja" =
      .ok ([("Name A", [Val.str "label"])], []) :=
  ⟨((legacy_identity_second_cleanup_noop envW).1 [("X", [Val.int 1])]
      (.yStr "2012") (by decide)).1,
    (legacy_identity_second_cleanup_noop envW).2 [("Name A", [Val.str "label"])]
      [] (.yStr "2012") "ja" (by decide) (by decide)⟩

/-- C9: the G02 legacy converter touches exactly the 78 columns
G02_002..G02_053 and G02_059..G02_084: on a (string-free) table it divides
each of them by 10 when all are present, and raises `KeyError` as soon as
one is missing — as does `cleanup` at year 2012 on such a table. -/
theorem g02_requires_complete_column_set :
    G02.g02Names.length = 78 ∧
    (∀ (df : Table) (n : String), n ∈ G02.g02Names → lookupCol df n = none →
      (∀ p ∈ df, ∀ v ∈ p.2, isStr v = false) →
      G02.convert df = .error .keyError) ∧
    (∀ (df d : Table), G02.convert df = .ok d →
      ∀ (m : String) (vs : List Val), m ∈ G02.g02Names → lookupCol df m = some vs →
        (∀ v ∈ vs, isStr v = false) → lookupCol d m = some (vs.map divPure)) ∧
    (∀ (env : Env) (cache : Cache) (df : Table) (n : String) (inplace : Bool)
        (lang : String),
      n ∈ G02.g02Names → lookupCol df n = none →
      (∀ p ∈ df, ∀ v ∈ p.2, isStr v = false) →
      cleanup env cache df (.yInt 2012) inplace lang = .error .keyError) := by
  refine ⟨by decide, ?_, ?_, ?_⟩
  · intro df n hn hmiss hnum
    exact convFold_missing G02.g02Names df ⟨n, hn, hmiss⟩ hnum
  · intro df d h m vs hm hl hnum
    exact convFold_divides G02.g02Names (by decide) df d h m vs hm hl hnum
  · intro env cache df n inplace lang hn hmiss hnum
    have hv : _convert_values env df (.yInt 2012) = .error .keyError := by
      rw [convertValues_eq, if_pos (Or.inl rfl)]
      exact convFold_missing G02.g02Names df ⟨n, hn, hmiss⟩ hnum
    exact cleanup_error_values hv

theorem g02_requires_complete_column_set_witness :
    G02.convert [("G02_003", [Val.int 15])] = .error .keyError :=
  (g02_requires_complete_column_set).2.1 [("G02_003", [Val.int 15])] "G02_002"
    (by decide) (by decide) (by decide)

/-- C5: for a column that resolves to a non-absent code table `d` during
the run, every cell is replaced by the table's label when the cell's code
is in `d` and by the missing marker `pandas.NA` when it is not; the
substitution itself is total (an absent code never raises), and no raw
code remains: every substituted cell is a label string or `NA`. -/
theorem code_substitution_label_or_na (env : Env) (cache : Cache) (year : YearArg)
    (lang : String) (pre post : Table) (n : String) (vs : List Val)
    (out outPre : Table) (cf c1 c2 : Cache) (d : CodeDict)
    (hpre : _convert_code env cache pre year lang = .ok (outPre, c1))
    (hread : read_code_list env c1 n year lang = .ok (some d, c2))
    (hall : _convert_code env cache (pre ++ (n, vs) :: post) year lang = .ok (out, cf)) :
    ∃ outPost, out = outPre ++ (n, vs.map (substVal d)) :: outPost ∧
      (∀ v ∈ vs, (∃ s, valGet d v = some s ∧ substVal d v = Val.str s) ∨
        (valGet d v = none ∧ substVal d v = Val.na)) ∧
      (∀ w ∈ vs.map (substVal d), (∃ s, w = Val.str s) ∨ w = Val.na) := by
  obtain ⟨o1, c1', o2, ha, hb, hc⟩ :=
    convertCode_append env year lang pre ((n, vs) :: post) cache out cf hall
  rw [hpre] at ha
  have hio := Except.ok.inj ha
  have ho : outPre = o1 := congrArg Prod.fst hio
  have hcc : c1 = c1' := congrArg Prod.snd hio
  subst ho
  subst hcc
  rw [convertCode_cons_some hread] at hb
  cases hin : _convert_code env c2 post year lang with
  | error e => rw [hin] at hb; simp [Except.map] at hb
  | ok rc =>
    rcases rc with ⟨r1, r2⟩
    rw [hin] at hb
    simp only [Except.map, Except.ok.injEq, Prod.mk.injEq] at hb
    obtain ⟨ho2, _⟩ := hb
    refine ⟨r1, ?_, ?_, ?_⟩
    · rw [hc, ← ho2]
    · intro v _
      exact substVal_spec d v
    · intro w hw
      rcases List.mem_map.mp hw with ⟨v, _, hwe⟩
      rw [← hwe]
      exact substVal_str_or_na d v

theorem code_substitution_label_or_na_witness :
    ∃ outPost, ([("C01_001", [Val.str "one", Val.na])] : Table) =
      [] ++ ("C01_001", [Val.int 1, Val.int 2].map (substVal [(1, "one")])) :: outPost ∧
      (∀ v ∈ [Val.int 1, Val.int 2],
        (∃ s, valGet [(1, "one")] v = some s ∧ substVal [(1, "one")] v = Val.str s) ∨
        (valGet [(1, "one")] v = none ∧ substVal [(1, "one")] v = Val.na)) ∧
      (∀ w ∈ [Val.int 1, Val.int 2].map (substVal [(1, "one")]),
        (∃ s, w = Val.str s) ∨ w = Val.na) :=
  code_substitution_label_or_na envC5 [] (.yStr "2000") "ja" [] []
    "C01_001" [Val.int 1, Val.int 2] [("C01_001", [Val.str "one", Val.na])] []
    [("C01_001-2000", [(1, "one")])] [] [("C01_001-2000", [(1, "one")])] [(1, "one")]
    rfl rfl rfl

/-- C6: a column whose identifier is unknown to the metadata store and to
the static rename table (and which is not one of the G02 legacy columns)
passes through `cleanup` with both its name and its values unchanged. -/
theorem unknown_column_passthrough (env : Env) (cache : Cache) (df : Table)
    (year : YearArg) (lang : String) (c : String) (vs : List Val) (j : ℕ)
    (res : CleanupResult)
    (hstore : (env.columnList lang).find? (fun p => p.1 == c) = none)
    (hconv : (env.defaultColumns lang).lookup c = none)
    (hg : c ∉ G02.g02Names)
    (hcache : cache.lookup (cacheKey c year) = none)
    (hj : df[j]? = some (c, vs))
    (hok : cleanup env cache df year false lang = .ok res) :
    res.caller = df ∧ ∃ out, res.ret = some out ∧ out[j]? = some (c, vs) := by
  obtain ⟨d1, d2, c2, h1, h2, hres⟩ := cleanup_inv hok
  subst hres
  refine ⟨rfl, _, rfl, ?_⟩
  have hd1 : d1[j]? = some (c, vs) := by
    rw [convertValues_eq] at h1
    by_cases hcnd : (year = YearArg.yInt 2012 ∨
        (year = YearArg.yNone ∧ (2012 : ℤ) = env.g02LatestYear))
    · rw [if_pos hcnd] at h1
      exact convFold_preserve_getElem? G02.g02Names df d1 h1 j (c, vs) hj hg
    · rw [if_neg hcnd] at h1
      rw [← Except.ok.inj h1]
      exact hj
  have hd2 : d2[j]? = some (c, vs) :=
    convertCode_preserve hstore d1 cache d2 c2 hcache h2 j vs hd1
  rw [rename_getElem?, hd2, Option.map_some']
  simp only [findName_unknown hstore, hconv]

theorem unknown_column_passthrough_witness :
    (⟨some [("Z01_999", [Val.int 7])], [("Z01_999", [Val.int 7])], []⟩ :
        CleanupResult).caller = [("Z01_999", [Val.int 7])] ∧
    ∃ out, (⟨some [("Z01_999", [Val.int 7])], [("Z01_999", [Val.int 7])], []⟩ :
        CleanupResult).ret = some out ∧
      out[0]? = some ("Z01_999", [Val.int 7]) :=
  unknown_column_passthrough envW [] [("Z01_999", [Val.int 7])] (.yStr "2000")
    "ja" "Z01_999" [Val.int 7] 0
    ⟨some [("Z01_999", [Val.int 7])], [("Z01_999", [Val.int 7])], []⟩
    rfl rfl (by decide) rfl rfl (by rfl)

/-- C1 counterexample: the cache key is `"{column}-{year}"` and omits the
language.  In `envC1` the column `L01_001` has a code table under "ja"
but is unknown to the "en" store, so its own "en" resolution is absent
(`.ok none`); yet after a "ja" resolution fills the cache, the "en"
resolution returns the "ja" table from the cache — not "en"'s own
result. -/
theorem cache_ignores_language_cex :
    read_code_list envC1 [] "L01_001" (.yStr "2012") "ja" =
      .ok (some [(1, "urban")], [("L01_001-2012", [(1, "urban")])]) ∧
    read_code_list envC1 [("L01_001-2012", [(1, "urban")])] "L01_001"
        (.yStr "2012") "en" =
      .ok (some [(1, "urban")], [("L01_001-2012", [(1, "urban")])]) ∧
    _read_codelist_file envC1 "L01_001" (.yStr "2012") "en" = .ok none := by
  refine ⟨rfl, rfl, rfl⟩

/-- C1 amended: the cache key is `(column, year)` only.  After a first
resolution under any language stored table `d`, resolving the same column
and year under any other language returns `d` from the cache; when the
column also has a code table under the second language, `d` agrees with
that language's own fresh resolution, because the per-year lookup files
are language-independent. -/
theorem cache_key_omits_language (env : Env) (cache : Cache) (col : String)
    (s : String) (lang1 lang2 : String) (d : CodeDict) (c1 : Cache)
    (hmiss : cache.lookup (cacheKey col (.yStr s)) = none)
    (h1 : read_code_list env cache col (.yStr s) lang1 = .ok (some d, c1)) :
    read_code_list env c1 col (.yStr s) lang2 = .ok (some d, c1) ∧
    (∀ pr, (env.columnList lang2).find? (fun p => p.1 == col) = some pr →
      pr.2.has_code_table = true →
      _read_codelist_file env col (.yStr s) lang2 = .ok (some d)) := by
  rcases rcl_inv h1 with ⟨d', hcl, _, _⟩ | ⟨_, ⟨_, ho, _⟩ | ⟨d', hrf, ho, hc1⟩⟩
  · rw [hmiss] at hcl
    cases hcl
  · cases ho
  · have hd : d' = d := (Option.some.inj ho).symm
    subst hd
    have hfile : env.codeFiles col s = some d' := by
      cases hf1 : (env.columnList lang1).find? (fun p => p.1 == col) with
      | none =>
        rw [rcf_of_find?_none hf1] at hrf
        cases Except.ok.inj hrf
      | some pr1 =>
        by_cases hct1 : pr1.2.has_code_table = true
        · rw [rcf_str_year hf1 hct1] at hrf
          cases hcf : env.codeFiles col s with
          | none => rw [hcf] at hrf; cases hrf
          | some rows =>
            rw [hcf] at hrf
            exact Except.ok.inj hrf
        · rw [rcf_of_no_code_table hf1 (Bool.eq_false_iff.mpr hct1)] at hrf
          cases Except.ok.inj hrf
    subst hc1
    constructor
    · exact rcl_cached List.lookup_cons_self
    · intro pr hf2 hct2
      rw [rcf_str_year hf2 hct2, hfile]

theorem cache_key_omits_language_witness :
    read_code_list envC1b [("L01_001-2012", [(1, "urban")])] "L01_001"
        (.yStr "2012") "en" =
      .ok (some [(1, "urban")], [("L01_001-2012", [(1, "urban")])]) ∧
    _read_codelist_file envC1b "L01_001" (.yStr "2012") "en" =
      .ok (some [(1, "urban")]) := by
  have h := cache_key_omits_language envC1b [] "L01_001" "2012" "ja" "en"
    [(1, "urban")] [("L01_001-2012", [(1, "urban")])] rfl rfl
  exact ⟨h.1, h.2 ("L01_001", ⟨[("2012", "price")], "2012", "price", true⟩) rfl rfl⟩

/-- C2 counterexample: in `envC2` the column id `A01_001` is both in the
"ja" metadata store (display name "Alpha") and in the static default
rename table (entry "Beta"); yet the final header is "Alpha", not the
static table's "Beta", because the static table is consulted with the
already-resolved name. -/
theorem static_rename_override_cex :
    (envC2.columnList "ja").find? (fun p => p.1 == "A01_001") =
      some ("A01_001", ⟨[("2000", "Alpha")], "2000", "Alpha", false⟩) ∧
    (envC2.defaultColumns "ja").lookup "A01_001" = some "Beta" ∧
    _rename_columns envC2 [("A01_001", [Val.int 1])] .yNone
        (envC2.defaultColumns "ja") "ja" = [("Alpha", [Val.int 1])] ∧
    ("Alpha" : String) ≠ "Beta" := by
  exact ⟨rfl, rfl, rfl, by decide⟩

/-- C2 amended: the renaming stage first resolves the year-specific (or
default) display name from the metadata store, and the static table then
overwrites that result only when the resolved name itself is one of its
keys: the final header is the static table's entry for the resolved name
when present and otherwise the resolved name; the static entry for the
original column id is not consulted once the column has been resolved. -/
theorem static_rename_applies_to_resolved_name (env : Env) (df : Table)
    (year : YearArg) (lang : String) (c : String) (vs : List Val) (j : ℕ)
    (pr : String × ColumnMeta) (b : String)
    (hfind : (env.columnList lang).find? (fun p => p.1 == c) = some pr)
    (_hstatic : (env.defaultColumns lang).lookup c = some b)
    (hj : df[j]? = some (c, vs)) :
    (_rename_columns env df year (env.defaultColumns lang) lang)[j]? =
      some ((match (env.defaultColumns lang).lookup
               (if year = .yNone then pr.2.default_name
                else
                  match pr.2.yearNames.lookup (pyStr year) with
                  | none => pr.2.default_name
                  | some nm => nm) with
             | some m => m
             | none =>
               if year = .yNone then pr.2.default_name
               else
                 match pr.2.yearNames.lookup (pyStr year) with
                 | none => pr.2.default_name
                 | some nm => nm), vs) := by
  rw [rename_getElem?, hj, Option.map_some']
  simp only [findName_some hfind]

theorem static_rename_applies_to_resolved_name_witness :
    (_rename_columns envC2 [("A01_001", [Val.int 1])] .yNone
        (envC2.defaultColumns "ja") "ja")[0]? = some ("Alpha", [Val.int 1]) := by
  have h := static_rename_applies_to_resolved_name envC2
    [("A01_001", [Val.int 1])] .yNone "ja" "A01_001" [Val.int 1] 0
    ("A01_001", ⟨[("2000", "Alpha")], "2000", "Alpha", false⟩) "Beta" rfl rfl rfl
  exact h.trans (by rfl)

/-- C3 counterexample: on a table holding only the `G02_003` column,
`cleanup` at year 2012 raises `KeyError` — the G02 legacy converter
indexes all 78 of its columns first — so it does not produce the converted
table the claim describes. -/
theorem cleanup_g02_partial_table_cex :
    cleanup envC3 [] [("G02_003", [Val.int 15, Val.int 999])] (.yInt 2012)
      false "ja" = .error .keyError := by
  decide

/-- C3 amended: on a table containing the complete G02 legacy column set,
with `G02_003` holding the integer codes 15 and 999, `cleanup` at year
2012 (no code table applying to these columns, fresh cache) divides the
values by ten — 15 becomes 1.5 — and renames the column header to the
2012 display name resolved for `G02_003`. -/
theorem cleanup_g02_full_table_converts (env : Env) (pr : String × ColumnMeta)
    (nm : String)
    (hread : ∀ n ∈ G02.g02Names, _read_codelist_file env n (.yInt 2012) "ja" = .ok none)
    (hfind : (env.columnList "ja").find? (fun p => p.1 == "G02_003") = some pr)
    (hyr : pr.2.yearNames.lookup "2012" = some nm)
    (hstatic : (env.defaultColumns "ja").lookup nm = none) :
    ∃ res, cleanup env [] dfG02full (.yInt 2012) false "ja" = .ok res ∧
      ∃ out, res.ret = some out ∧
        out[1]? = some (nm, [Val.rat ((15 : ℚ) / 10), Val.rat ((999 : ℚ) / 10)]) := by
  obtain ⟨d1, hd1⟩ := convFold_total G02.g02Names dfG02full (by decide)
  have hconv : G02.convert dfG02full = .ok d1 := hd1
  have hv : _convert_values env dfG02full (.yInt 2012) = .ok d1 := by
    rw [convertValues_eq, if_pos (Or.inl rfl)]
    exact hconv
  have hnames : d1.map Prod.fst = G02.g02Names := by
    rw [convFold_names G02.g02Names dfG02full d1 hd1]
    decide
  have hnodup : (d1.map Prod.fst).Nodup := by
    rw [hnames]
    decide
  have hmem : ∀ p ∈ d1, p.1 ∈ G02.g02Names := by
    intro p hp
    rw [← hnames]
    exact List.mem_map.mpr ⟨p, hp, rfl⟩
  have hcc : _convert_code env [] d1 (.yInt 2012) "ja" = .ok (d1, []) :=
    convertCode_noop env (.yInt 2012) "ja" d1 [] (fun p _ => rfl)
      (fun p hp => hread p.1 (hmem p hp))
  have hget1 : ∃ ws, d1[1]? = some ("G02_003", ws) := by
    have h2 : (d1.map Prod.fst)[1]? = some "G02_003" := by
      rw [hnames]
      decide
    rw [List.getElem?_map] at h2
    cases hgt : d1[1]? with
    | none => rw [hgt] at h2; cases h2
    | some p =>
      rw [hgt] at h2
      simp only [Option.map_some'] at h2
      refine ⟨p.2, ?_⟩
      have hp1 : p.1 = "G02_003" := Option.some.inj h2
      rw [← hp1]
  obtain ⟨ws, hws⟩ := hget1
  have hlook : lookupCol d1 "G02_003" = some ws :=
    lookupCol_of_getElem?_nodup d1 1 "G02_003" ws hnodup hws
  have hdiv : lookupCol d1 "G02_003" = some ([Val.int 15, Val.int 999].map divPure) :=
    convFold_divides G02.g02Names (by decide) dfG02full d1 hd1 "G02_003"
      [Val.int 15, Val.int 999] (by decide) (by decide) (by decide)
  have hmap : [Val.int 15, Val.int 999].map divPure =
      [Val.rat ((15 : ℚ) / 10), Val.rat ((999 : ℚ) / 10)] := by
    simp [divPure]
  have hwsv : ws = [Val.rat ((15 : ℚ) / 10), Val.rat ((999 : ℚ) / 10)] := by
    rw [hlook] at hdiv
    exact (Option.some.inj hdiv).trans hmap
  subst hwsv
  refine ⟨_, cleanup_eq_ok hv hcc, _, rfl, ?_⟩
  rw [rename_getElem?, hws, Option.map_some']
  have hps : pyStr (YearArg.yInt 2012) = "2012" := by decide
  have hfn : _find_column_name_from_data_dir env "G02_003" (.yInt 2012) "ja" = nm :=
    findName_found (by decide) hfind (by rw [hps]; exact hyr)
  simp only [hfn, hstatic]

theorem cleanup_g02_full_table_converts_witness :
    ∃ res, cleanup envC3 [] dfG02full (.yInt 2012) false "ja" = .ok res ∧
      ∃ out, res.ret = some out ∧
        out[1]? = some ("mesh temp",
          [Val.rat ((15 : ℚ) / 10), Val.rat ((999 : ℚ) / 10)]) :=
  cleanup_g02_full_table_converts envC3 ("G02_003", envC3meta) "mesh temp"
    (by decide) rfl rfl rfl

end Ksjutil
